import Mathlib

/-!
# zgo: a shallow embedding of `build.go` and `config.go`

Go strings are embedded as Lean `String`s (sequences of characters; the
separators the code splits on are ASCII, so splitting on a character and
splitting on the corresponding byte agree).  A Go `panic` and a returned
`error` are both values of `Err`; a function that can panic or fail returns
`Except Err _`.  Everything the program asks of the outside world (files,
subprocesses, HTTP) is answered by an `Oracle`, one field per call site, and
every such request is recorded in a trace of `Event`s.  Diagnostic printing
to standard error is not recorded.
-/

namespace Zgo

/-! ## The Go library functions the sources use -/

namespace strings

/-- Go `strings.HasPrefix`. -/
def HasPrefix (s pre : String) : Bool :=
  pre.data.isPrefixOf s.data

/-- Go `strings.HasSuffix`. -/
def HasSuffix (s suf : String) : Bool :=
  suf.data.isSuffixOf s.data

/-- Go `strings.TrimPrefix`: `s` without the leading `pre`, or `s` itself. -/
def TrimPrefix (s pre : String) : String :=
  if HasPrefix s pre then String.mk (s.data.drop pre.data.length) else s

/-- Go `strings.Contains` for a one-character needle. -/
def ContainsChar (s : String) (c : Char) : Bool :=
  s.data.contains c

/-- The pieces of a character sequence between occurrences of `sep`. -/
def splitChars (sep : Char) : List Char → List (List Char)
  | [] => [[]]
  | c :: cs =>
    if c = sep then [] :: splitChars sep cs
    else
      match splitChars sep cs with
      | [] => [[c]]
      | piece :: pieces => (c :: piece) :: pieces

/-- Go `strings.Split(s, string(sep))` for a one-character separator. -/
def Split (s : String) (sep : Char) : List String :=
  (splitChars sep s.data).map String.mk

/-- Go `strings.Join`. -/
def Join : List String → String → String
  | [], _ => ""
  | [a], _ => a
  | a :: b :: rest, sep => a ++ sep ++ Join (b :: rest) sep

/-- Go `unicode.IsSpace`. -/
def isSpace (c : Char) : Bool :=
  c.val.toNat ∈ [0x09, 0x0A, 0x0B, 0x0C, 0x0D, 0x20, 0x85, 0xA0, 0x1680, 0x2028, 0x2029,
    0x202F, 0x205F, 0x3000] || (0x2000 ≤ c.val.toNat && c.val.toNat ≤ 0x200A)

/-- Go `strings.TrimSpace`. -/
def TrimSpace (s : String) : String :=
  String.mk ((s.data.dropWhile isSpace).reverse.dropWhile isSpace).reverse

end strings

/-! ## Target resolver (`build.go`, lines 111-230) -/

/-- An error value or a panic: `new` is `errors.New(msg)`, `wrap` a cause
wrapped with a message, `lib` an error of the operating system or of a library,
given by its message, and `panic` a Go panic. -/
inductive Err where
  | new (msg : String)
  | wrap (cause : Err) (msg : String)
  | lib (what : String)
  | panic (msg : String)
  deriving DecidableEq, Repr

deriving instance DecidableEq for Except

/-- `zigSuffix` of `build.go`. -/
def zigSuffix (goOS : String) : Except Err String :=
  if goOS = "windows" then .ok "-gnu"
  else if goOS = "linux" then .ok "-musl"
  else if goOS = "darwin" then .ok ""
  else .error (.panic "unsupported GOOS")

/-- `zigOS` of `build.go`. -/
def zigOS (goOS : String) : Except Err String :=
  if goOS = "windows" then .ok "windows"
  else if goOS = "linux" then .ok "linux"
  else if goOS = "darwin" then .ok "macos"
  else .error (.panic "unsupported GOOS")

/-- `zigArch` of `build.go`. -/
def zigArch (goArch : String) : Except Err String :=
  if goArch = "amd64" then .ok "x86_64"
  else if goArch = "arm64" then .ok "aarch64"
  else .error (.panic "unsupported GOARCH")

/-- `zigTargetTriple` of `build.go`, with `targetGOOS()` and `targetGOARCH()`
taken as inputs. Go evaluates the arguments of `Sprintf` left to right. -/
def zigTargetTriple (goOS goArch : String) : Except Err String := do
  let arch ← zigArch goArch
  let os ← zigOS goOS
  let suffix ← zigSuffix goOS
  pure (arch ++ "-" ++ os ++ suffix)

/-- `goBuildLdFlags` of `build.go`. -/
def goBuildLdFlags (goOS : String) : Except Err String :=
  if goOS = "windows" then .ok ""
  else if goOS = "linux" then .ok ""
  else if goOS = "darwin" then .ok "-s -w -linkmode external"
  else .error (.panic "unhandled Zig OS (this is a bug, please report it)")

/-- `goBuildFlags` of `build.go`. -/
def goBuildFlags (goOS : String) : Except Err (List String) :=
  if goOS = "windows" then .ok []
  else if goOS = "linux" then .ok []
  else if goOS = "darwin" then .ok ["-buildmode=pie"]
  else .error (.panic "unhandled Zig OS (this is a bug, please report it)")

/-! ## Archive entry names and the search path (`build.go`, lines 381-387, 460-472) -/

/-- `stripComponents` of `build.go`; `sep` is `os.PathSeparator`. The slice
expression `elems[n:]` panics for a negative `n`. -/
def stripComponents (sep : Char) (path : String) (n : Int) : Except Err String :=
  let elems := strings.Split path sep
  if (elems.length : Int) ≥ n then
    if n < 0 then .error (.panic "slice bounds out of range")
    else .ok (strings.Join (elems.drop n.toNat) (String.singleton sep))
  else .ok (strings.Join elems (String.singleton sep))

/-- `enforcePATH` of `build.go`; `sep` is `os.PathListSeparator`. -/
def enforcePATH (sep : Char) (env : List String) (dir : String) : List String :=
  env.map fun v =>
    if !strings.HasPrefix v "PATH" then v
    else
      let list := strings.Split (strings.TrimPrefix v "PATH=") sep
      let list := [dir] ++ list
      "PATH=" ++ strings.Join list (String.singleton sep)

/-! ## Effects and the outside world -/

/-- A request the program makes of the outside world. In `exec`, `env` is
`cmd.Env` (`none` for a nil slice: the child inherits the process environment)
and `dir` is `cmd.Dir`. -/
inductive Event where
  | httpGet (url : String)
  | exec (env : Option (List String)) (dir name : String) (args : List String)
  | setenv (key value : String)
  | removeAll (path : String)
  | mkdirAll (path : String)
  | create (path : String)
  | extract (archive dst : String) (stripPathComponents : Int)
  deriving DecidableEq, Repr

/-- Network access: an HTTP GET, a `git clone` or a `git fetch`. -/
def Event.isNetwork : Event → Bool
  | .httpGet _ => true
  | .exec _ _ name args =>
    name == "git" && (args.head? == some "clone" || args.head? == some "fetch")
  | _ => false

/-- A computation with effects: the requests made so far, and a value, an
error or a panic. -/
structure Run (α : Type) where
  trace : List Event
  result : Except Err α

/-- Modelled from the spec: `errors.Wrap(err, msg)` of the package
`internal/errors`, which is not among the sources, for a non-nil `err`. The spec
says every internal error is wrapped with the name of the operation that
produced it, building a causal chain; that is what `Err.wrap` records. A panic
is not an error value and passes through. -/
def errorsWrap (e : Err) (msg : String) : Err :=
  match e with
  | .panic m => .panic m
  | e => .wrap e msg

namespace Run

/-- Sequencing: an error or panic ends the computation. -/
def andThen {α β : Type} (m : Run α) (f : α → Run β) : Run β :=
  match m.result with
  | .error e => ⟨m.trace, .error e⟩
  | .ok a => ⟨m.trace ++ (f a).trace, (f a).result⟩

instance : Monad Run where
  pure a := ⟨[], .ok a⟩
  bind := andThen

/-- Return an error. -/
def fail {α : Type} (e : Err) : Run α := ⟨[], .error e⟩

/-- Record one request. -/
def emit (ev : Event) : Run Unit := ⟨[ev], .ok ()⟩

/-- A pure computation that may panic or fail. -/
def lift {α : Type} (x : Except Err α) : Run α := ⟨[], x⟩

/-- The Go error value of a call, for `if err := f(); err != nil`: `none` is
`nil`. A panic is not caught. -/
def attempt (m : Run Unit) : Run (Option Err) :=
  match m.result with
  | .ok _ => ⟨m.trace, .ok none⟩
  | .error (.panic msg) => ⟨m.trace, .error (.panic msg)⟩
  | .error e => ⟨m.trace, .ok (some e)⟩

/-- Return `errors.Wrap(err, msg)` in place of `err`. -/
def wrap {α : Type} (m : Run α) (msg : String) : Run α :=
  match m.result with
  | .ok a => ⟨m.trace, .ok a⟩
  | .error e => ⟨m.trace, .error (errorsWrap e msg)⟩

/-- A Go `defer` of one request: it is made on every exit path. -/
def deferred {α : Type} (m : Run α) (ev : Event) : Run α :=
  ⟨m.trace ++ [ev], m.result⟩

end Run

/-- The process environment: variable names and values. -/
abbrev Env := List (String × String)

/-- Go `os.Getenv`: the empty string for an unset variable. -/
def Getenv (env : Env) (key : String) : String :=
  (env.lookup key).getD ""

/-- Go `os.Setenv`. -/
def Setenv (env : Env) (key value : String) : Env :=
  if env.any (fun kv => kv.1 == key) then
    env.map (fun kv => if kv.1 == key then (key, value) else kv)
  else env ++ [(key, value)]

/-- Go `os.Environ`. -/
def Environ (env : Env) : List String :=
  env.map (fun kv => kv.1 ++ "=" ++ kv.2)

/-- Go `strconv.ParseBool`: the value and the error. -/
def ParseBool (str : String) : Bool × Option Err :=
  if str ∈ ["1", "t", "T", "TRUE", "true", "True"] then (true, none)
  else if str ∈ ["0", "f", "F", "FALSE", "false", "False"] then (false, none)
  else (false, some (.lib "strconv.ParseBool: invalid syntax"))

/-! ## Configuration (`config.go`) -/

/-- `Config` of `config.go`. -/
structure Config where
  Version : String
  Verbose : Bool
  Dir : String
  AcceptXCodeLicense : Bool
  deriving DecidableEq, Repr

/-- The zero value of `Config` (`var cfg Config`). -/
def Config.zero : Config := ⟨"", false, "", false⟩

/-- The keys a well-formed `zgo.toml` gives, each with its value. -/
structure TomlFile where
  version : Option String
  verbose : Option Bool
  dir : Option String
  acceptXCodeLicense : Option Bool
  deriving DecidableEq, Repr

/-- The empty file: no key given. -/
def TomlFile.empty : TomlFile := ⟨none, none, none, none⟩

/-- What `toml.DecodeFile` answers: an error for which `os.IsNotExist` holds,
another error (unreadable or malformed), or the decoded keys. An error of the
outside world is given by its message. -/
inductive DecodeOutcome where
  | notExist (msg : String)
  | failed (msg : String)
  | decoded (f : TomlFile)
  deriving DecidableEq, Repr

/-- Decoding into `out`: a key of the file overwrites its field, a field
without key in the file is left as it was. -/
def TomlFile.decodeInto (f : TomlFile) (out : Config) : Config :=
  { Version := f.version.getD out.Version
    Verbose := f.verbose.getD out.Verbose
    Dir := f.dir.getD out.Dir
    AcceptXCodeLicense := f.acceptXCodeLicense.getD out.AcceptXCodeLicense }

/-- What a subprocess answers: the text it wrote, or the message of the error
of `cmd.Run`. -/
abbrev CmdOutcome := Except String String

/-- The answers to the requests of `ensureCloned`, one per call site. -/
structure GitOracle where
  dstDirNotExist : Bool
  clone : CmdOutcome
  revParse : CmdOutcome
  reset : CmdOutcome
  fetch : CmdOutcome
  resetAgain : CmdOutcome

/-- The host and the answers of the outside world, one field per call site. -/
structure Oracle where
  runtimeGOOS : String
  runtimeGOARCH : String
  PathSeparator : Char
  PathListSeparator : Char
  pathJoin : List String → String
  pathAbs : String → Except String String
  pathDir : String → String
  decodeFile : DecodeOutcome
  nightlyGet : Option String
  nightlyDecode : Except String (Option String)
  lookPathZig : Except String String
  zigDirNotExist : Bool
  mkdirAll : Option String
  create : Option String
  downloadGet : Except String (Bool × String)
  downloadCopy : Option String
  archiveOpen : Option String
  archiveExtract : Option String
  sdk : GitOracle
  buildZigExists : Bool
  zigBuild : CmdOutcome
  goBuild : CmdOutcome

/-- The URL of the index of Zig versions. -/
def nightlyIndexURL : String := "https://ziglang.org/download/index.json"

/-- `queryLatestNightlyZigVersion` of `config.go`. `nightlyDecode` is the
outcome of decoding the body into the pointer `v`: `none` for a JSON `null`,
which leaves `v` nil, so that `v.Master.Version` panics. -/
def queryLatestNightlyZigVersion (o : Oracle) : Run String := do
  Run.emit (.httpGet nightlyIndexURL)
  match o.nightlyGet with
  | some e => Run.fail (.lib e)
  | none =>
    match o.nightlyDecode with
    | .error e => Run.fail (.lib e)
    | .ok none => Run.fail (.panic "invalid memory address or nil pointer dereference")
    | .ok (some version) => pure version

/-- `LoadConfig` of `config.go` for the file `zgo.toml`: the requests made,
`*out` afterwards and the returned error. After a decode that fails `*out` is
given as it was; the handler, the one caller, does not read it then. -/
def LoadConfig (o : Oracle) (env : Env) (out : Config) : List Event × Config × Option Err :=
  match o.decodeFile with
  | .notExist _ => ([], out, none)
  | .failed e => ([], out, some (.lib e))
  | .decoded f =>
    let out := f.decodeInto out
    let versionStep : List Event × Config × Option Err :=
      if out.Version = "" then
        let out := { out with Version := Getenv env "ZGO_VERSION" }
        if out.Version = "" then
          let q := queryLatestNightlyZigVersion o
          match q.result with
          | .error e => (q.trace, out, some (errorsWrap e "querying latest nightly Zig version"))
          | .ok latestNightly => (q.trace, { out with Version := latestNightly }, none)
        else ([], out, none)
      else ([], out, none)
    match versionStep with
    | (tr, out, some e) => (tr, out, some e)
    | (tr, out, none) =>
      let out :=
        if !out.Verbose then { out with Verbose := (ParseBool (Getenv env "ZGO_VERBOSE")).1 }
        else out
      let out :=
        if !out.AcceptXCodeLicense then
          { out with AcceptXCodeLicense := (ParseBool (Getenv env "ZGO_ACCEPT_XCODE_LICENSE")).1 }
        else out
      let out :=
        if out.Dir = "" then
          let out := { out with Dir := Getenv env "ZGO_DIR" }
          if out.Dir = "" then { out with Dir := ".zgo" } else out
        else out
      (tr, out, none)

/-! ## The build command (`build.go`) -/

/-- `targetGOOS` of `build.go`. -/
def targetGOOS (o : Oracle) (env : Env) : String :=
  let goOS := Getenv env "GOOS"
  if goOS = "" then o.runtimeGOOS else goOS

/-- `targetGOARCH` of `build.go`. -/
def targetGOARCH (o : Oracle) (env : Env) : String :=
  let goArch := Getenv env "GOARCH"
  if goArch = "" then o.runtimeGOARCH else goArch

/-- `filepath.Abs` with its error dropped, as at `zigExe, _ :=` and `d, _ :=`:
the empty string when it fails. -/
def absOrEmpty (o : Oracle) (path : String) : String :=
  match o.pathAbs path with
  | .ok p => p
  | .error _ => ""

/-- `xcodeSDKDir` of `build.go`. -/
def xcodeSDKDir (o : Oracle) (cfg : Config) : String :=
  absOrEmpty o (o.pathJoin [cfg.Dir, "sdk-macos-12.0"])

/-- `goCCZigFlags` of `build.go`. -/
def goCCZigFlags (o : Oracle) (env : Env) (cfg : Config) : Except Err String :=
  let goOS := targetGOOS o env
  if goOS = "windows" then .ok "-Wno-dll-attribute-on-redeclaration"
  else if goOS = "linux" then .ok ""
  else if goOS = "darwin" then
    let root := o.pathJoin [xcodeSDKDir o cfg, "root"]
    let frameworks := o.pathJoin [root, "System/Library/Frameworks"]
    .ok ("-F " ++ frameworks ++ " --sysroot " ++ root)
  else .error (.panic "unhandled Zig OS (this is a bug, please report it)")

/-- `goCXXZigFlags` of `build.go`. -/
def goCXXZigFlags (o : Oracle) (env : Env) (cfg : Config) : Except Err String :=
  let goOS := targetGOOS o env
  if goOS = "windows" then .ok "-Wno-dll-attribute-on-redeclaration"
  else if goOS = "linux" then .ok ""
  else if goOS = "darwin" then
    let root := o.pathJoin [xcodeSDKDir o cfg, "root"]
    let frameworks := o.pathJoin [root, "System/Library/Frameworks"]
    .ok ("-F " ++ frameworks ++ " --sysroot " ++ root)
  else .error (.panic "unhandled Zig OS (this is a bug, please report it)")

/-- `goCC` of `build.go`. -/
def goCC (o : Oracle) (env : Env) (cfg : Config) : Except Err String := do
  let triple ← zigTargetTriple (targetGOOS o env) (targetGOARCH o env)
  let flags ← goCCZigFlags o env cfg
  pure (strings.Join ["zig", "cc", "-target", triple, flags] " ")

/-- `goCXX` of `build.go`. -/
def goCXX (o : Oracle) (env : Env) (cfg : Config) : Except Err String := do
  let triple ← zigTargetTriple (targetGOOS o env) (targetGOARCH o env)
  let flags ← goCXXZigFlags o env cfg
  pure (strings.Join ["zig", "c++", "-target", triple, flags] " ")

/-- `formatCmdLine` of `build.go`. -/
def formatCmdLine (name : String) (args : List String) : String :=
  let quote := String.singleton (Char.ofNat 39)
  let cmdLine := [name] ++ args.map fun arg =>
    if strings.ContainsChar arg ' ' then quote ++ arg ++ quote else arg
  strings.Join cmdLine " "

/-- `execf` of `build.go`: run `name args` in `dir` with environment `env`;
`outcome` is what the subprocess answers. The value is the text written to `f`. -/
def execf (outcome : CmdOutcome) (env : Option (List String)) (dir name : String)
    (args : List String) : Run String :=
  ⟨[.exec env dir name args],
    match outcome with
    | .ok text => .ok text
    | .error e => .error (errorsWrap (.lib e) (formatCmdLine name args))⟩

/-- `ensureCloned` of `build.go`. -/
def ensureCloned (g : GitOracle) (remoteURL rev dstDir : String) : Run Unit := do
  if g.dstDirNotExist then
    let _ ← execf g.clone none "" "git" ["clone", "-c", "core.longpaths=true", remoteURL, dstDir]
  let headBuf ← execf g.revParse none dstDir "git" ["rev-parse", "HEAD"]
  let head := strings.TrimSpace headBuf
  if head = rev then
    pure ()
  else
    let err ← Run.attempt (do
      let _ ← execf g.reset none dstDir "git" ["reset", "--hard", rev])
    match err with
    | some _ =>
      let _ ← execf g.fetch none dstDir "git" ["fetch"]
      let _ ← execf g.resetAgain none dstDir "git" ["reset", "--hard", rev]
    | none => pure ()

/-- `ensureXCodeSDK` of `build.go`. -/
def ensureXCodeSDK (o : Oracle) (cfg : Config) : Run Unit :=
  let sdkDir := o.pathJoin [cfg.Dir, "sdk-macos-12.0"]
  ensureCloned o.sdk "https://github.com/hexops/sdk-macos-12.0"
    "14613b4917c7059dad8f3789f55bb13a2548f83d" sdkDir

/-- `downloadFile` of `build.go`. `downloadGet` answers the GET with whether
the status is 200 and the status text. -/
def downloadFile (o : Oracle) (url filepath : String) : Run Unit := do
  Run.emit (.create filepath)
  match o.create with
  | some e => Run.fail (errorsWrap (.lib e) "Create")
  | none =>
    Run.emit (.httpGet url)
    match o.downloadGet with
    | .error e => Run.fail (errorsWrap (.lib e) "Get")
    | .ok (statusOK, status) =>
      if !statusOK then Run.fail (.new ("bad response status: " ++ status))
      else
        match o.downloadCopy with
        | some e => Run.fail (errorsWrap (.lib e) "Copy")
        | none => pure ()

/-- `extractArchive` of `build.go`. The library call `format.Extract` with the
per-entry handler is one request, answered by `archiveExtract`. -/
def extractArchive (o : Oracle) (archiveFilePath dst : String) (stripPathComponents : Int) :
    Run Unit := do
  match o.archiveOpen with
  | some e => Run.fail (errorsWrap (.lib e) "Open(archiveFilePath)")
  | none =>
    if strings.HasSuffix archiveFilePath ".tar.gz" || strings.HasSuffix archiveFilePath ".tar.xz"
        || strings.HasSuffix archiveFilePath ".zip" then
      Run.emit (.extract archiveFilePath dst stripPathComponents)
      match o.archiveExtract with
      | some e => Run.fail (errorsWrap (.lib e) "Extract")
      | none => pure ()
    else Run.fail (.new "unsupported archive format")

/-- The destination of one archive entry, as the handler inside
`extractArchive` computes it. -/
def entryDstPath (o : Oracle) (dst nameInArchive : String) (stripPathComponents : Int) :
    Except Err String := do
  let rel ← stripComponents o.PathSeparator nameInArchive stripPathComponents
  pure (o.pathJoin [dst, rel])

/-- `downloadExtractZig` of `build.go`. -/
def downloadExtractZig (o : Oracle) (version dst archiveFileTmpPath : String) : Run Unit := do
  let hostGOOS := o.runtimeGOOS
  let hostGOARCH := o.runtimeGOARCH
  let extension := if hostGOOS = "windows" then "zip" else "tar.xz"
  let stripPathComponents : Int := if hostGOOS = "windows" then 0 else 1
  let archiveFileTmpPath := archiveFileTmpPath ++ "." ++ extension
  let os ← Run.lift (zigOS hostGOOS)
  let arch ← Run.lift (zigArch hostGOARCH)
  let url := "https://ziglang.org/builds/zig-" ++ os ++ "-" ++ arch ++ "-" ++ version ++ "."
    ++ extension
  Run.emit (.removeAll archiveFileTmpPath)
  Run.emit (.mkdirAll (o.pathDir archiveFileTmpPath))
  match o.mkdirAll with
  | some e => Run.fail (errorsWrap (.lib e) "MkdirAll")
  | none =>
    Run.deferred (do
      Run.wrap (downloadFile o url archiveFileTmpPath) "download"
      Run.wrap (extractArchive o archiveFileTmpPath dst stripPathComponents) "extract")
      (.removeAll archiveFileTmpPath)

/-- `ensureZigVersion` of `build.go`. -/
def ensureZigVersion (o : Oracle) (cfg : Config) : Run String := do
  if cfg.Version = "system" then
    match o.lookPathZig with
    | .error _ =>
      Run.fail (.new
        "zgo: zig is not installed (zgo is configured to use system Zig installation)")
    | .ok _pathToZig => pure ""
  else
    let zigDir := o.pathJoin [cfg.Dir, "zig", cfg.Version]
    if o.zigDirNotExist then
      let archiveFileTmpPath := o.pathJoin [cfg.Dir, "zig", "download.tmp"]
      downloadExtractZig o cfg.Version zigDir archiveFileTmpPath
    let exeExt := if o.runtimeGOOS = "windows" then ".exe" else ""
    let zigExe := absOrEmpty o (o.pathJoin [zigDir, "zig" ++ exeExt])
    pure zigExe

/-- The loop over `args` in the handler (`build.go`, lines 81-87), over the
pairs `(i, arg)` still to visit. The index expression `args[i+1]` panics when
`-ldflags` is the last argument. -/
def ldflagsLoop (goOS : String) (args : List String) :
    List (Nat × String) → List String × Bool → Except Err (List String × Bool)
  | [], st => .ok st
  | (i, arg) :: rest, (goBuildArgs, hasLdFlags) =>
    if arg = "-ldflags" then
      match args[i + 1]? with
      | none => .error (.panic "index out of range")
      | some next =>
        match goBuildLdFlags goOS with
        | .error e => .error e
        | .ok ld =>
          ldflagsLoop goOS args rest (goBuildArgs ++ ["-ldflags"] ++ [next ++ " " ++ ld], true)
    else ldflagsLoop goOS args rest (goBuildArgs, hasLdFlags)

/-- The argument list the handler gives to `go` (`build.go`, lines 78-91). -/
def goBuildArgs (goOS : String) (args : List String) : Except Err (List String) := do
  let flags ← goBuildFlags goOS
  let goBuildArgs := ["build"] ++ flags
  let (goBuildArgs, hasLdFlags) ← ldflagsLoop goOS args args.enum (goBuildArgs, false)
  if !hasLdFlags then
    let ld ← goBuildLdFlags goOS
    pure (goBuildArgs ++ ["-ldflags"] ++ [ld])
  else pure goBuildArgs

/-- The error of the licence gate. -/
def licenceError : Err :=
  .new "zgo: to accept set AcceptXCodeLicense=true in zgo.toml or ZGO_ACCEPT_XCODE_LICENSE=true"

/-- The handler of the `build` subcommand (`build.go`, lines 28-97). -/
def handler (o : Oracle) (env : Env) (args : List String) : Run Unit := do
  let loaded := LoadConfig o env Config.zero
  let cfg ← (⟨loaded.1, match loaded.2.2 with
    | some e => .error (errorsWrap e "zgo: LoadConfig")
    | none => .ok loaded.2.1⟩ : Run Config)
  if targetGOOS o env = "darwin" then
    if !cfg.AcceptXCodeLicense then
      Run.fail licenceError
    Run.wrap (ensureXCodeSDK o cfg) "zgo"
  let zigExe ← Run.wrap (ensureZigVersion o cfg) "zgo"
  let _ ← Run.lift (zigTargetTriple (targetGOOS o env) (targetGOARCH o env))
  if cfg.Verbose then
    let _ ← Run.lift (goCC o env cfg)
    let _ ← Run.lift (goCXX o env cfg)
  let cc ← Run.lift (goCC o env cfg)
  Run.emit (.setenv "CC" cc)
  let env := Setenv env "CC" cc
  let cxx ← Run.lift (goCXX o env cfg)
  Run.emit (.setenv "CXX" cxx)
  let env := Setenv env "CXX" cxx
  if o.buildZigExists then
    let triple ← Run.lift (zigTargetTriple (targetGOOS o env) (targetGOARCH o env))
    let _ ← Run.wrap (execf o.zigBuild none "" zigExe ["build", "-Dtarget=" ++ triple]) "zgo"
  let childEnv := enforcePATH o.PathListSeparator (Environ env) (o.pathDir zigExe)
  let goBuildArgs ← Run.lift (goBuildArgs (targetGOOS o env) args)
  let _ ← Run.wrap (execf o.goBuild (some childEnv) "" "go" goBuildArgs) "zgo"
  pure ()

/-- A POSIX host with nothing installed and every request succeeding. -/
def sampleOracle : Oracle where
  runtimeGOOS := "linux"
  runtimeGOARCH := "amd64"
  PathSeparator := '/'
  PathListSeparator := ':'
  pathJoin := fun elems => strings.Join (elems.filter (fun e => e ≠ "")) "/"
  pathAbs := fun p => .ok (if strings.HasPrefix p "/" then p else "/work/" ++ p)
  pathDir := fun p =>
    if p.data.contains '/' then
      let d := String.mk ((p.data.reverse.dropWhile (fun c => c ≠ '/')).drop 1).reverse
      if d = "" then "/" else d
    else "."
  decodeFile := .decoded TomlFile.empty
  nightlyGet := none
  nightlyDecode := .ok (some "0.12.0-dev.1+abc")
  lookPathZig := .ok "/usr/bin/zig"
  zigDirNotExist := true
  mkdirAll := none
  create := none
  downloadGet := .ok (true, "200 OK")
  downloadCopy := none
  archiveOpen := none
  archiveExtract := none
  sdk := ⟨true, .ok "", .ok "14613b4917c7059dad8f3789f55bb13a2548f83d\n", .ok "", .ok "", .ok ""⟩
  buildZigExists := false
  zigBuild := .ok ""
  goBuild := .ok ""

/-! ## Vocabulary of the statements -/

/-- The `git clone` request of `ensureCloned`. -/
def cloneCmd (remoteURL dstDir : String) : Event :=
  .exec none "" "git" ["clone", "-c", "core.longpaths=true", remoteURL, dstDir]

/-- The `git rev-parse HEAD` request of `ensureCloned`. -/
def revParseCmd (dstDir : String) : Event :=
  .exec none dstDir "git" ["rev-parse", "HEAD"]

/-- The `git reset --hard` request of `ensureCloned`. -/
def resetCmd (rev dstDir : String) : Event :=
  .exec none dstDir "git" ["reset", "--hard", rev]

/-- The `git fetch` request of `ensureCloned`. -/
def fetchCmd (dstDir : String) : Event :=
  .exec none dstDir "git" ["fetch"]

/-- The subprocess ended with an error. -/
def failed (c : CmdOutcome) : Bool :=
  match c with
  | .ok _ => false
  | .error _ => true

/-- The clone, when one is needed, succeeds. -/
def GitOracle.cloneFine (g : GitOracle) : Bool :=
  !g.dstDirNotExist || !failed g.clone

/-- The revision `rev-parse` reports, when it succeeds. -/
def GitOracle.head (g : GitOracle) : Option String :=
  match g.revParse with
  | .ok text => some (strings.TrimSpace text)
  | .error _ => none

/-- The argument lists of the `go` commands among the requests. -/
def goCalls (tr : List Event) : List (List String) :=
  tr.filterMap fun ev =>
    match ev with
    | .exec _ _ name args => if name = "go" then some args else none
    | _ => none

/-- The merged pairs the loop of the handler appends for an argument list:
for each `-ldflags` followed by a value, that flag and the value followed by a
space and the generated flags `ld`. -/
def ldflagsPairs (ld : String) : List String → List String
  | [] => []
  | [_] => []
  | arg :: next :: rest =>
    if arg = "-ldflags" then
      ["-ldflags", next ++ " " ++ ld] ++ ldflagsPairs ld (next :: rest)
    else ldflagsPairs ld (next :: rest)

/-- The precedence as C6 words it, for a decoded file `f`: a key the file
gives wins, whatever its value; otherwise the environment variable when it is
set; otherwise the default (`nightly` for the version). -/
def claimedConfig (f : TomlFile) (env : Env) (nightly : String) : Config :=
  { Version :=
      match f.version with
      | some v => v
      | none => if Getenv env "ZGO_VERSION" ≠ "" then Getenv env "ZGO_VERSION" else nightly
    Verbose :=
      match f.verbose with
      | some b => b
      | none => (ParseBool (Getenv env "ZGO_VERBOSE")).1
    Dir :=
      match f.dir with
      | some d => d
      | none => if Getenv env "ZGO_DIR" ≠ "" then Getenv env "ZGO_DIR" else ".zgo"
    AcceptXCodeLicense :=
      match f.acceptXCodeLicense with
      | some b => b
      | none => (ParseBool (Getenv env "ZGO_ACCEPT_XCODE_LICENSE")).1 }

/-- A file that sets every key, with `verbose = false`. -/
def quietFile : TomlFile :=
  ⟨some "0.11.0", some false, some "cache", some false⟩

/-- The sample host with `zgo.toml` missing. -/
def noFileOracle : Oracle :=
  { sampleOracle with decodeFile := .notExist "open zgo.toml: no such file or directory" }

/-! ## Facts about the library functions -/

theorem splitChars_ne_nil (sep : Char) (cs : List Char) : strings.splitChars sep cs ≠ [] := by
  cases cs with
  | nil => simp [strings.splitChars]
  | cons c cs =>
    unfold strings.splitChars
    split_ifs
    · simp
    · split <;> simp

theorem Split_ne_nil (s : String) (sep : Char) : strings.Split s sep ≠ [] := by
  simp [strings.Split, splitChars_ne_nil]

theorem Join_cons_of_ne_nil (a : String) (rest : List String) (sep : String) (h : rest ≠ []) :
    strings.Join (a :: rest) sep = a ++ sep ++ strings.Join rest sep := by
  cases rest with
  | nil => exact absurd rfl h
  | cons b rest => rfl

theorem singleton_data (c : Char) : (String.singleton c).data = [c] := rfl

theorem splitChars_cons_sep (sep : Char) (cs : List Char) :
    strings.splitChars sep (sep :: cs) = [] :: strings.splitChars sep cs := by
  rw [strings.splitChars, if_pos rfl]

theorem splitChars_cons_other (sep c : Char) (cs : List Char) (h : c ≠ sep) :
    strings.splitChars sep (c :: cs) =
      match strings.splitChars sep cs with
      | [] => [[c]]
      | piece :: pieces => (c :: piece) :: pieces := by
  rw [strings.splitChars, if_neg h]

theorem Join_splitChars (sep : Char) (cs : List Char) :
    (strings.Join ((strings.splitChars sep cs).map String.mk) (String.singleton sep)).data = cs := by
  induction cs with
  | nil => rfl
  | cons c cs ih =>
    by_cases hc : c = sep
    · subst hc
      rw [splitChars_cons_sep, List.map_cons,
        Join_cons_of_ne_nil _ _ _ (by simp [splitChars_ne_nil])]
      simp only [String.data_append, singleton_data, ih]
      rfl
    · rw [splitChars_cons_other sep c cs hc]
      split
      · next h => exact absurd h (splitChars_ne_nil sep cs)
      · next piece pieces h =>
        rw [h] at ih
        cases pieces with
        | nil =>
          simp only [List.map_cons, List.map_nil, strings.Join] at ih ⊢
          simp [ih]
        | cons p ps =>
          simp only [List.map_cons, strings.Join, String.data_append] at ih ⊢
          simp [← ih]

/-- Joining the pieces of a split gives the string back. -/
theorem Join_Split (s : String) (sep : Char) :
    strings.Join (strings.Split s sep) (String.singleton sep) = s := by
  apply String.ext
  simp [strings.Split, Join_splitChars]

theorem splitChars_of_not_mem (sep : Char) (cs : List Char) (h : sep ∉ cs) :
    strings.splitChars sep cs = [cs] := by
  induction cs with
  | nil => rfl
  | cons c cs ih =>
    simp only [List.mem_cons, not_or] at h
    rw [splitChars_cons_other sep c cs (fun hc => h.1 hc.symm), ih h.2]

theorem splitChars_append_sep (sep : Char) (piece rest : List Char) (h : sep ∉ piece) :
    strings.splitChars sep (piece ++ sep :: rest) = piece :: strings.splitChars sep rest := by
  induction piece with
  | nil => simp [splitChars_cons_sep]
  | cons c cs ih =>
    simp only [List.mem_cons, not_or] at h
    rw [List.cons_append, splitChars_cons_other sep c _ (fun hc => h.1 hc.symm), ih h.2]

/-- Splitting the join of separator-free components gives the components back. -/
theorem Split_Join (sep : Char) (comps : List String) (hne : comps ≠ [])
    (hfree : ∀ c ∈ comps, sep ∉ c.data) :
    strings.Split (strings.Join comps (String.singleton sep)) sep = comps := by
  induction comps with
  | nil => exact absurd rfl hne
  | cons a rest ih =>
    cases rest with
    | nil =>
      simp [strings.Split, strings.Join, splitChars_of_not_mem sep a.data (hfree a (by simp))]
    | cons b rest =>
      have ih2 := ih (by simp) (fun c hc => hfree c (List.mem_cons_of_mem _ hc))
      simp only [strings.Split] at ih2 ⊢
      rw [Join_cons_of_ne_nil _ _ _ (by simp)]
      simp only [String.data_append, singleton_data, List.append_assoc, List.singleton_append]
      rw [splitChars_append_sep sep _ _ (hfree a (by simp)), List.map_cons, ih2]

/-! ## Target resolver -/

/-- C8: `zigTargetTriple` succeeds exactly on the three supported systems and
two supported architectures, fails as a whole (by one of the two panics)
otherwise, and returns the documented triple on each of the six pairs. -/
theorem zigTargetTriple_supported_iff (goOS goArch : String) :
    ((∃ triple, zigTargetTriple goOS goArch = .ok triple) ↔
      (goOS = "windows" ∨ goOS = "linux" ∨ goOS = "darwin") ∧
        (goArch = "amd64" ∨ goArch = "arm64")) ∧
    (∀ e, zigTargetTriple goOS goArch = .error e →
      e = .panic "unsupported GOOS" ∨ e = .panic "unsupported GOARCH") ∧
    zigTargetTriple "windows" "amd64" = .ok ("x86_64" ++ "-" ++ "windows" ++ "-gnu") ∧
    zigTargetTriple "windows" "arm64" = .ok ("aarch64" ++ "-" ++ "windows" ++ "-gnu") ∧
    zigTargetTriple "linux" "amd64" = .ok ("x86_64" ++ "-" ++ "linux" ++ "-musl") ∧
    zigTargetTriple "linux" "arm64" = .ok ("aarch64" ++ "-" ++ "linux" ++ "-musl") ∧
    zigTargetTriple "darwin" "amd64" = .ok ("x86_64" ++ "-" ++ "macos" ++ "") ∧
    zigTargetTriple "darwin" "arm64" = .ok ("aarch64" ++ "-" ++ "macos" ++ "") ∧
    zigTargetTriple "linux" "amd64" = .ok "x86_64-linux-musl" := by
  refine ⟨?_, ?_, by decide, by decide, by decide, by decide, by decide, by decide, by decide⟩
  · simp only [zigTargetTriple, zigArch, zigOS, zigSuffix, bind, Except.bind, pure, Except.pure]
    split_ifs <;> simp_all
  · intro e
    simp only [zigTargetTriple, zigArch, zigOS, zigSuffix, bind, Except.bind, pure, Except.pure]
    split_ifs <;> simp_all

/-! ## Archive entry names -/

/-- C10: for a name made of at least `n` separator-free components joined by
the separator, `stripComponents` returns the components after the first `n`,
joined by the separator; with `n = 0` that is the name itself, and with `n`
the number of components it is the empty path. -/
theorem stripComponents_drops_leading (sep : Char) (comps : List String) (n : Nat)
    (hne : comps ≠ []) (hfree : ∀ c ∈ comps, sep ∉ c.data) (hn : n ≤ comps.length) :
    stripComponents sep (strings.Join comps (String.singleton sep)) (n : Int)
        = .ok (strings.Join (comps.drop n) (String.singleton sep)) ∧
      stripComponents sep (strings.Join comps (String.singleton sep)) 0
        = .ok (strings.Join comps (String.singleton sep)) ∧
      stripComponents sep (strings.Join comps (String.singleton sep)) (comps.length : Int)
        = .ok "" := by
  have key : ∀ k : Nat, k ≤ comps.length →
      stripComponents sep (strings.Join comps (String.singleton sep)) (k : Int)
        = .ok (strings.Join (comps.drop k) (String.singleton sep)) := by
    intro k hk
    simp only [stripComponents, Split_Join sep comps hne hfree]
    rw [if_pos (by exact_mod_cast hk), if_neg (by omega)]
    simp
  refine ⟨key n hn, ?_, ?_⟩
  · have := key 0 (Nat.zero_le _)
    simpa using this
  · have := key comps.length (Nat.le_refl _)
    simpa [strings.Join] using this

/-- The example of C10: `zig.exe` with nothing stripped stays `zig.exe`, and a
name of one component with one stripped is the empty path. -/
theorem stripComponents_drops_leading_witness :
    (stripComponents '/' "zig.exe" 0 = .ok "zig.exe") ∧
      (stripComponents '/' "zig-linux-x86_64" 1 = .ok "") ∧
      (stripComponents '/' "zig-linux-x86_64/lib/std.zig" 1 = .ok "lib/std.zig") :=
  ⟨(stripComponents_drops_leading '/' ["zig.exe"] 0 (by decide) (by decide) (by decide)).1,
    (stripComponents_drops_leading '/' ["zig-linux-x86_64"] 1 (by decide) (by decide)
      (by decide)).1,
    (stripComponents_drops_leading '/' ["zig-linux-x86_64", "lib", "std.zig"] 1 (by decide)
      (by decide) (by decide)).1⟩

/-- With nothing stripped every name is returned as it is. -/
theorem stripComponents_zero (sep : Char) (name : String) :
    stripComponents sep name 0 = .ok name := by
  simp [stripComponents, Join_Split]

/-- With nothing stripped an archive entry is extracted to the join of the
destination and its name: `zig.exe` goes to `dst/zig.exe`. -/
theorem entryDstPath_zero (o : Oracle) (dst nameInArchive : String) :
    entryDstPath o dst nameInArchive 0 = .ok (o.pathJoin [dst, nameInArchive]) := by
  simp [entryDstPath, stripComponents_zero, bind, Except.bind, pure, Except.pure]

/-! ## The search path -/

/-- C3: an entry whose key is `PATHEXT` or `PATH_INFO`, not `PATH`, is rewritten
by `enforcePATH` into a second `PATH=` entry. -/
theorem enforcePATH_rewrites_other_keys :
    enforcePATH ':' ["HOME=/root", "PATH=/bin:/usr/bin", "PATHEXT=.COM;.EXE", "PATH_INFO=x"] "/z"
      = ["HOME=/root", "PATH=/z:/bin:/usr/bin", "PATH=/z:PATHEXT=.COM;.EXE",
          "PATH=/z:PATH_INFO=x"] := by
  decide

/-- The part of C3 that holds: the length and order are kept, an entry
`PATH=old` becomes `PATH=` + dir + separator + `old`, and an entry that does
not start with the four characters `PATH` is unchanged. -/
theorem enforcePATH_on_PATH_entries (sep : Char) (env : List String) (dir : String) :
    (enforcePATH sep env dir).length = env.length ∧
    ∀ (i : Nat) (v : String), env[i]? = some v →
      (∀ old, v = "PATH=" ++ old →
        (enforcePATH sep env dir)[i]? = some ("PATH=" ++ dir ++ String.singleton sep ++ old)) ∧
      (strings.HasPrefix v "PATH" = false → (enforcePATH sep env dir)[i]? = some v) := by
  refine ⟨by simp [enforcePATH], ?_⟩
  intro i v hv
  have hd : ∀ old : String, ("PATH=" ++ old).data = 'P' :: 'A' :: 'T' :: 'H' :: '=' :: old.data := by
    intro old
    rw [String.data_append]
    rfl
  refine ⟨?_, ?_⟩
  · intro old hold
    subst hold
    have h1 : strings.HasPrefix ("PATH=" ++ old) "PATH" = true := by
      simp only [strings.HasPrefix, hd]
      rfl
    have h2 : strings.TrimPrefix ("PATH=" ++ old) "PATH=" = old := by
      have h3 : strings.HasPrefix ("PATH=" ++ old) "PATH=" = true := by
        simp only [strings.HasPrefix, hd]
        show List.isPrefixOf ['P', 'A', 'T', 'H', '='] _ = true
        simp [List.isPrefixOf]
      simp only [strings.TrimPrefix, h3, if_true, hd]
      rfl
    simp only [enforcePATH, List.getElem?_map, hv, Option.map_some', h1, h2, Bool.not_true,
      Bool.false_eq_true, if_false, List.singleton_append]
    rw [Join_cons_of_ne_nil _ _ _ (Split_ne_nil _ _), Join_Split]
    simp [String.append_assoc]
  · intro hpre
    simp [enforcePATH, List.getElem?_map, hv, hpre]

/-! ## The companion SDK -/

/-- C9: `ensureCloned` clones exactly when the directory is missing; at the
pinned revision it succeeds with no reset and no fetch; otherwise it resets
once, fetches once only when that reset fails, and resets once more only after
a successful fetch; it returns an error exactly when the clone, the rev-parse,
the fetch or the final reset fails; the requests are always an initial part of
clone, rev-parse, reset, fetch, reset. -/
theorem ensureCloned_protocol (g : GitOracle) (remoteURL rev dstDir : String) :
    (cloneCmd remoteURL dstDir ∈ (ensureCloned g remoteURL rev dstDir).trace
        ↔ g.dstDirNotExist = true) ∧
    (g.cloneFine = true → g.head = some rev →
      (ensureCloned g remoteURL rev dstDir).result = .ok () ∧
      (ensureCloned g remoteURL rev dstDir).trace.count (resetCmd rev dstDir) = 0 ∧
      (ensureCloned g remoteURL rev dstDir).trace.count (fetchCmd dstDir) = 0) ∧
    (g.cloneFine = true → ∀ h, g.head = some h → h ≠ rev →
      (failed g.reset = false →
        (ensureCloned g remoteURL rev dstDir).result = .ok () ∧
        (ensureCloned g remoteURL rev dstDir).trace.count (resetCmd rev dstDir) = 1 ∧
        (ensureCloned g remoteURL rev dstDir).trace.count (fetchCmd dstDir) = 0) ∧
      (failed g.reset = true →
        (ensureCloned g remoteURL rev dstDir).trace.count (fetchCmd dstDir) = 1 ∧
        (failed g.fetch = true →
          (ensureCloned g remoteURL rev dstDir).trace.count (resetCmd rev dstDir) = 1) ∧
        (failed g.fetch = false →
          (ensureCloned g remoteURL rev dstDir).trace.count (resetCmd rev dstDir) = 2))) ∧
    ((∃ e, (ensureCloned g remoteURL rev dstDir).result = .error e) ↔
      (g.dstDirNotExist = true ∧ failed g.clone = true) ∨
      (g.cloneFine = true ∧ failed g.revParse = true) ∨
      (g.cloneFine = true ∧ (∃ h, g.head = some h ∧ h ≠ rev) ∧ failed g.reset = true ∧
        (failed g.fetch = true ∨ failed g.resetAgain = true))) ∧
    (ensureCloned g remoteURL rev dstDir).trace.count (resetCmd rev dstDir) ≤ 2 ∧
    (ensureCloned g remoteURL rev dstDir).trace.count (fetchCmd dstDir) ≤ 1 ∧
    (ensureCloned g remoteURL rev dstDir).trace <+:
      (if g.dstDirNotExist then [cloneCmd remoteURL dstDir] else []) ++
        [revParseCmd dstDir, resetCmd rev dstDir, fetchCmd dstDir, resetCmd rev dstDir] := by
  obtain ⟨ne, cl, rp, rs, fe, ra⟩ := g
  rcases rp with e | text
  · cases ne <;> cases cl <;>
      simp [ensureCloned, execf, errorsWrap, bind, Run.andThen, pure, cloneCmd, revParseCmd,
        resetCmd, fetchCmd, failed, GitOracle.cloneFine, GitOracle.head, List.count_cons,
        List.prefix_iff_eq_take]
  · by_cases hh : strings.TrimSpace text = rev
    · cases ne <;> cases cl <;>
        simp [ensureCloned, execf, errorsWrap, bind, Run.andThen, pure, cloneCmd, revParseCmd,
          resetCmd, fetchCmd, failed, GitOracle.cloneFine, GitOracle.head, hh, List.count_cons,
          List.prefix_iff_eq_take]
    · rcases rs with e | t
      · rcases fe with e2 | t2
        · cases ne <;> cases cl <;>
            simp [ensureCloned, execf, Run.attempt, errorsWrap, bind, Run.andThen, pure, cloneCmd,
              revParseCmd, resetCmd, fetchCmd, failed, GitOracle.cloneFine, GitOracle.head, hh,
              List.count_cons, List.prefix_iff_eq_take]
        · cases ne <;> cases cl <;> cases ra <;>
            simp [ensureCloned, execf, Run.attempt, errorsWrap, bind, Run.andThen, pure, cloneCmd,
              revParseCmd, resetCmd, fetchCmd, failed, GitOracle.cloneFine, GitOracle.head, hh,
              List.count_cons, List.prefix_iff_eq_take]
      · cases ne <;> cases cl <;>
          simp [ensureCloned, execf, Run.attempt, errorsWrap, bind, Run.andThen, pure, cloneCmd,
            revParseCmd, resetCmd, fetchCmd, failed, GitOracle.cloneFine, GitOracle.head, hh,
            List.count_cons, List.prefix_iff_eq_take]

/-! ## Assembling the arguments of `go build` -/

theorem merged_value_ne_flag (v g : String) : v ++ " " ++ g ≠ "-ldflags" := by
  intro h
  have hm : ' ' ∈ (v ++ " " ++ g).data := by
    have : (" " : String).data = [' '] := rfl
    simp [String.data_append, this]
  rw [h] at hm
  revert hm
  decide

theorem pair_infix_cons (x y a : String) (rest : List String) :
    [x, y] <:+: a :: rest ↔ (x = a ∧ rest.head? = some y) ∨ [x, y] <:+: rest := by
  rw [List.infix_cons_iff]
  cases rest with
  | nil => simp
  | cons b r => simp [eq_comm]

theorem ldflagsLoop_cons (goOS : String) (args : List String) (i : Nat) (arg : String)
    (rest : List (Nat × String)) (acc : List String) (has : Bool) :
    ldflagsLoop goOS args ((i, arg) :: rest) (acc, has) =
      if arg = "-ldflags" then
        match args[i + 1]? with
        | none => .error (.panic "index out of range")
        | some next =>
          match goBuildLdFlags goOS with
          | .error e => .error e
          | .ok ld =>
            ldflagsLoop goOS args rest (acc ++ ["-ldflags"] ++ [next ++ " " ++ ld], true)
      else ldflagsLoop goOS args rest (acc, has) := by
  rw [ldflagsLoop]

theorem ldflagsLoop_eq (goOS ld : String) (hld : goBuildLdFlags goOS = .ok ld) :
    ∀ (suf pre acc : List String) (has : Bool), suf.getLast? ≠ some "-ldflags" →
      ldflagsLoop goOS (pre ++ suf) (suf.enumFrom pre.length) (acc, has)
        = .ok (acc ++ ldflagsPairs ld suf, has || decide ("-ldflags" ∈ suf)) := by
  intro suf
  induction suf with
  | nil => intro pre acc has _; simp [ldflagsLoop, ldflagsPairs]
  | cons a rest ih =>
    intro pre acc has hlast
    rw [List.enumFrom_cons]
    cases rest with
    | nil =>
      have ha : a ≠ "-ldflags" := by
        intro h
        apply hlast
        simp [h]
      simp [ldflagsLoop, ldflagsPairs, ha, Ne.symm ha]
    | cons v r =>
      have hlast2 : (v :: r).getLast? ≠ some "-ldflags" := by
        simpa using hlast
      have hidx : (pre ++ a :: v :: r)[pre.length + 1]? = some v := by
        rw [List.getElem?_append_right (by omega)]
        simp
      have hsplit : pre ++ a :: v :: r = (pre ++ [a]) ++ (v :: r) := by simp
      by_cases ha : a = "-ldflags"
      · have step := ih (pre ++ [a]) (acc ++ ["-ldflags"] ++ [v ++ " " ++ ld]) true hlast2
        rw [List.length_append, List.length_singleton, ← hsplit] at step
        rw [ldflagsLoop_cons, if_pos ha, hidx]
        simp only [hld]
        rw [step]
        simp [ldflagsPairs, ha]
      · have step := ih (pre ++ [a]) acc has hlast2
        rw [List.length_append, List.length_singleton, ← hsplit] at step
        rw [ldflagsLoop_cons, if_neg ha, step]
        simp [ldflagsPairs, ha, Ne.symm ha]

theorem ldflagsPairs_of_not_mem (ld : String) (suf : List String) (h : "-ldflags" ∉ suf) :
    ldflagsPairs ld suf = [] := by
  induction suf with
  | nil => rfl
  | cons a rest ih =>
    cases rest with
    | nil => rfl
    | cons v r =>
      simp only [List.mem_cons, not_or] at h
      have ha : a ≠ "-ldflags" := fun e => h.1 e.symm
      simp only [ldflagsPairs, ha, if_false]
      exact ih (by simp only [List.mem_cons, not_or]; exact h.2)

theorem ldflagsPairs_complete (ld v : String) (suf : List String)
    (h : ["-ldflags", v] <:+: suf) :
    ["-ldflags", v ++ " " ++ ld] <:+: ldflagsPairs ld suf := by
  induction suf with
  | nil => simp at h
  | cons a rest ih =>
    cases rest with
    | nil => simp [pair_infix_cons] at h
    | cons b r =>
      rw [pair_infix_cons] at h
      by_cases ha : a = "-ldflags"
      · simp only [ldflagsPairs, ha, if_true]
        rcases h with ⟨_, hb⟩ | h
        · simp only [List.head?_cons, Option.some.injEq] at hb
          subst hb
          exact (List.prefix_append _ _).isInfix
        · exact (ih h).trans (List.suffix_append _ _).isInfix
      · simp only [ldflagsPairs, ha, if_false]
        rcases h with ⟨ha2, _⟩ | h
        · exact absurd ha2.symm ha
        · exact ih h

theorem ldflagsPairs_sound (ld w : String) (suf : List String)
    (h : ["-ldflags", w] <:+: ldflagsPairs ld suf) :
    ∃ v, ["-ldflags", v] <:+: suf ∧ w = v ++ " " ++ ld := by
  induction suf with
  | nil => simp [ldflagsPairs] at h
  | cons a rest ih =>
    cases rest with
    | nil => simp [ldflagsPairs] at h
    | cons b r =>
      by_cases ha : a = "-ldflags"
      · simp only [ldflagsPairs, ha, if_true, List.cons_append, List.nil_append] at h
        rw [pair_infix_cons, pair_infix_cons] at h
        rcases h with ⟨_, hw⟩ | ⟨hbad, _⟩ | h
        · simp only [List.head?_cons, Option.some.injEq] at hw
          exact ⟨b, by rw [pair_infix_cons]; left; simp [ha], hw.symm⟩
        · exact absurd hbad.symm (merged_value_ne_flag b ld)
        · obtain ⟨v, hv, hw⟩ := ih h
          exact ⟨v, List.infix_cons hv, hw⟩
      · simp only [ldflagsPairs, ha, if_false] at h
        obtain ⟨v, hv, hw⟩ := ih h
        exact ⟨v, List.infix_cons hv, hw⟩

theorem ldflagsPairs_count (ld : String) (suf : List String)
    (hlast : suf.getLast? ≠ some "-ldflags") :
    (ldflagsPairs ld suf).count "-ldflags" = suf.count "-ldflags" := by
  induction suf with
  | nil => rfl
  | cons a rest ih =>
    cases rest with
    | nil =>
      have ha : a ≠ "-ldflags" := by
        intro h
        apply hlast
        simp [h]
      simp [ldflagsPairs, List.count_cons, ha]
    | cons b r =>
      have hlast2 : (b :: r).getLast? ≠ some "-ldflags" := by
        simpa using hlast
      have ih2 := ih hlast2
      by_cases ha : a = "-ldflags"
      · simp only [ldflagsPairs, ha, if_true, List.cons_append, List.nil_append]
        rw [List.count_cons, List.count_cons, ih2, List.count_cons (a := "-ldflags") (b := "-ldflags")]
        simp [merged_value_ne_flag b ld]
      · simp only [ldflagsPairs, ha, if_false]
        rw [ih2, List.count_cons (a := "-ldflags") (b := a)]
        simp [ha]

theorem goBuildFlags_of_ldflags (goOS g : String) (hg : goBuildLdFlags goOS = .ok g) :
    goBuildFlags goOS = .ok [] ∨ goBuildFlags goOS = .ok ["-buildmode=pie"] := by
  unfold goBuildLdFlags at hg
  unfold goBuildFlags
  split_ifs at hg ⊢ <;> simp_all

theorem goBuildArgs_eq (goOS g : String) (args flags : List String)
    (hg : goBuildLdFlags goOS = .ok g) (hf : goBuildFlags goOS = .ok flags)
    (hlast : args.getLast? ≠ some "-ldflags") :
    goBuildArgs goOS args = .ok
      (if "-ldflags" ∈ args then "build" :: flags ++ ldflagsPairs g args
        else "build" :: flags ++ ["-ldflags", g]) := by
  have hloop := ldflagsLoop_eq goOS g hg args [] (["build"] ++ flags) false hlast
  simp only [List.nil_append, List.length_nil, Bool.false_or] at hloop
  simp only [goBuildArgs, hf, hg, bind, Except.bind, List.enum, hloop, pure, Except.pure]
  by_cases hmem : "-ldflags" ∈ args
  · simp [hmem]
  · simp [hmem, ldflagsPairs_of_not_mem g args hmem]

/-- The part of C2 that holds: when the target has generated linker flags `g`
and every `-ldflags` of the caller has a value after it, the handler builds an
argument list for `go build` in which each caller pair `-ldflags v` appears as `-ldflags` followed
by `v`, one space and `g`, no other `-ldflags` value appears, and there are as
many `-ldflags` as the caller gave; without a caller `-ldflags` exactly one is
appended, with the value `g` alone. -/
theorem goBuildArgs_merges_ldflags (goOS g : String) (args : List String)
    (hg : goBuildLdFlags goOS = .ok g) (hlast : args.getLast? ≠ some "-ldflags") :
    ∃ flags out, goBuildFlags goOS = .ok flags ∧ goBuildArgs goOS args = .ok out ∧
      ("-ldflags" ∈ args →
        (∀ v, ["-ldflags", v] <:+: args → ["-ldflags", v ++ " " ++ g] <:+: out) ∧
        (∀ w, ["-ldflags", w] <:+: out → ∃ v, ["-ldflags", v] <:+: args ∧ w = v ++ " " ++ g) ∧
        out.count "-ldflags" = args.count "-ldflags") ∧
      ("-ldflags" ∉ args →
        out = "build" :: flags ++ ["-ldflags", g] ∧ out.count "-ldflags" = 1) := by
  have hcount : ∀ flags : List String, flags = [] ∨ flags = ["-buildmode=pie"] →
      ∀ rest : List String, ("build" :: flags ++ rest).count "-ldflags" = rest.count "-ldflags" := by
    intro flags hfl rest
    rcases hfl with rfl | rfl
    · rw [List.cons_append, List.nil_append, List.count_cons]
      simp
    · rw [List.cons_append, List.cons_append, List.nil_append, List.count_cons, List.count_cons]
      simp
  have hstrip : ∀ flags : List String, flags = [] ∨ flags = ["-buildmode=pie"] →
      ∀ (w : String) (rest : List String), ["-ldflags", w] <:+: "build" :: flags ++ rest →
        ["-ldflags", w] <:+: rest := by
    intro flags hfl w rest h
    rcases hfl with rfl | rfl
    · rw [List.cons_append, List.nil_append, pair_infix_cons] at h
      rcases h with ⟨hbad, _⟩ | h
      · exact absurd hbad (by decide)
      · exact h
    · rw [List.cons_append, List.cons_append, List.nil_append, pair_infix_cons,
        pair_infix_cons] at h
      rcases h with ⟨hbad, _⟩ | ⟨hbad, _⟩ | h
      · exact absurd hbad (by decide)
      · exact absurd hbad (by decide)
      · exact h
  have hflags : ∃ flags, goBuildFlags goOS = .ok flags ∧ (flags = [] ∨ flags = ["-buildmode=pie"]) := by
    rcases goBuildFlags_of_ldflags goOS g hg with h | h
    · exact ⟨[], h, Or.inl rfl⟩
    · exact ⟨["-buildmode=pie"], h, Or.inr rfl⟩
  obtain ⟨flags, hf, hfl⟩ := hflags
  refine ⟨flags, _, hf, goBuildArgs_eq goOS g args flags hg hf hlast, ?_, ?_⟩
  · intro hmem
    rw [if_pos hmem]
    refine ⟨?_, ?_, ?_⟩
    · intro v hv
      exact (ldflagsPairs_complete g v args hv).trans (List.suffix_append _ _).isInfix
    · intro w hw
      exact ldflagsPairs_sound g w args (hstrip flags hfl w _ hw)
    · rw [hcount flags hfl, ldflagsPairs_count g args hlast]
  · intro hmem
    rw [if_neg hmem]
    refine ⟨rfl, ?_⟩
    rw [hcount flags hfl]
    have hgne : g ≠ "-ldflags" := by
      unfold goBuildLdFlags at hg
      split_ifs at hg <;> simp at hg <;> subst hg <;> decide
    rw [List.count_cons, List.count_cons]
    simp [hgne]

/-- The merge on the code: the caller's `-X foo` is kept and the generated
flags of the darwin target are appended after one space. -/
theorem goBuildArgs_merges_ldflags_witness :
    ∃ flags out, goBuildFlags "darwin" = .ok flags ∧
      goBuildArgs "darwin" ["-o", "out", "-ldflags", "-X foo", "./cmd"] = .ok out ∧
      ("-ldflags" ∈ ["-o", "out", "-ldflags", "-X foo", "./cmd"] →
        (∀ v, ["-ldflags", v] <:+: ["-o", "out", "-ldflags", "-X foo", "./cmd"] →
          ["-ldflags", v ++ " " ++ "-s -w -linkmode external"] <:+: out) ∧
        (∀ w, ["-ldflags", w] <:+: out →
          ∃ v, ["-ldflags", v] <:+: ["-o", "out", "-ldflags", "-X foo", "./cmd"] ∧
            w = v ++ " " ++ "-s -w -linkmode external") ∧
        out.count "-ldflags" = ["-o", "out", "-ldflags", "-X foo", "./cmd"].count "-ldflags") ∧
      ("-ldflags" ∉ ["-o", "out", "-ldflags", "-X foo", "./cmd"] →
        out = "build" :: flags ++ ["-ldflags", "-s -w -linkmode external"] ∧
          out.count "-ldflags" = 1) :=
  goBuildArgs_merges_ldflags "darwin" "-s -w -linkmode external"
    ["-o", "out", "-ldflags", "-X foo", "./cmd"] (by decide) (by decide)

/-- The handler panics on an argument list that ends in `-ldflags`. -/
theorem goBuildArgs_dangling_flag :
    goBuildArgs "linux" ["-ldflags"] = .error (.panic "index out of range") ∧
      goBuildArgs "linux" ["-ldflags", "-X foo", "-ldflags"]
        = .error (.panic "index out of range") := by
  decide

/-- C2: the argument list `./cmd -ldflags "-X foo" -ldflags` contains the pair
`-ldflags "-X foo"`, yet no `-ldflags` value reaches `go build`, on the darwin
target with its generated flags as on the linux target: at the last argument
the index expression `args[i+1]` panics, the handler ends with that panic and
runs no `go` command. -/
theorem goBuildArgs_trailing_flag_panics :
    ["-ldflags", "-X foo"] <:+: ["./cmd", "-ldflags", "-X foo", "-ldflags"] ∧
      goBuildLdFlags "darwin" = .ok "-s -w -linkmode external" ∧
      goBuildLdFlags "linux" = .ok "" ∧
      goBuildArgs "darwin" ["./cmd", "-ldflags", "-X foo", "-ldflags"]
        = .error (.panic "index out of range") ∧
      goBuildArgs "linux" ["./cmd", "-ldflags", "-X foo", "-ldflags"]
        = .error (.panic "index out of range") ∧
      (handler sampleOracle [] ["./cmd", "-ldflags", "-X foo", "-ldflags"]).result
        = .error (.panic "index out of range") ∧
      goCalls (handler sampleOracle [] ["./cmd", "-ldflags", "-X foo", "-ldflags"]).trace = [] := by
  refine ⟨⟨["./cmd"], ["-ldflags"], rfl⟩, ?_, ?_, ?_, ?_, ?_, ?_⟩ <;> decide

/-- C1: the caller argument `./cmd`, and likewise the arguments `-o out ./cmd`,
do not reach `go build`: the argument list the handler assembles for the linux
target is `build -ldflags` followed by the empty value, and that is the one
`go` command the handler runs before it returns without error. -/
theorem goBuildArgs_drops_caller_args :
    goBuildArgs "linux" ["./cmd"] = .ok ["build", "-ldflags", ""] ∧
      goCalls (handler sampleOracle [] ["./cmd"]).trace = [["build", "-ldflags", ""]] ∧
      (handler sampleOracle [] ["./cmd"]).result = .ok () ∧
      goBuildArgs "linux" ["-o", "out", "./cmd"] = .ok ["build", "-ldflags", ""] ∧
      "-o" ∉ ["build", "-ldflags", ""] ∧ "out" ∉ ["build", "-ldflags", ""] ∧
      "./cmd" ∉ ["build", "-ldflags", ""] ∧
      goCalls (handler sampleOracle [] ["-o", "out", "./cmd"]).trace
        = [["build", "-ldflags", ""]] ∧
      (handler sampleOracle [] ["-o", "out", "./cmd"]).result = .ok () := by
  decide

/-! ## Configuration -/

theorem LoadConfig_notExist (o : Oracle) (env : Env) (out : Config) (msg : String)
    (h : o.decodeFile = .notExist msg) : LoadConfig o env out = ([], out, none) := by
  simp [LoadConfig, h]

theorem queryLatestNightlyZigVersion_trace (o : Oracle) :
    (queryLatestNightlyZigVersion o).trace = [.httpGet nightlyIndexURL] := by
  unfold queryLatestNightlyZigVersion
  rcases h1 : o.nightlyGet with _ | e
  · rcases h2 : o.nightlyDecode with e | _ | v <;>
      simp [bind, Run.andThen, Run.emit, Run.fail, pure]
  · simp [bind, Run.andThen, Run.emit, Run.fail]

/-- C5: with `zgo.toml` missing `LoadConfig` returns no error and leaves the
configuration as it was, here the zero value: `Dir` is empty, not `ZGO_DIR` nor
`.zgo`, `Version` is empty and `ZGO_VERBOSE` is not read, while the empty file
on the same host gives the defaults. -/
theorem LoadConfig_missing_file_skips_defaults :
    LoadConfig noFileOracle [("ZGO_DIR", "cache"), ("ZGO_VERBOSE", "true")] Config.zero
        = ([], ⟨"", false, "", false⟩, none) ∧
      LoadConfig noFileOracle [] Config.zero = ([], ⟨"", false, "", false⟩, none) ∧
      LoadConfig sampleOracle [("ZGO_DIR", "cache"), ("ZGO_VERBOSE", "true")] Config.zero
        = ([.httpGet nightlyIndexURL], ⟨"0.12.0-dev.1+abc", true, "cache", false⟩, none) ∧
      LoadConfig sampleOracle [] Config.zero
        = ([.httpGet nightlyIndexURL], ⟨"0.12.0-dev.1+abc", false, ".zgo", false⟩, none) := by
  decide

/-- C6 as worded fails: the file gives `verbose = false`, `ZGO_VERBOSE` is
`true`, and the loaded configuration is verbose. -/
theorem LoadConfig_env_overrides_false :
    { sampleOracle with decodeFile := .decoded quietFile }.decodeFile = .decoded quietFile ∧
      (LoadConfig { sampleOracle with decodeFile := .decoded quietFile }
        [("ZGO_VERBOSE", "true")] Config.zero).2.2 = none ∧
      (LoadConfig { sampleOracle with decodeFile := .decoded quietFile }
        [("ZGO_VERBOSE", "true")] Config.zero).2.1.Verbose = true ∧
      (claimedConfig quietFile [("ZGO_VERBOSE", "true")] "0.12.0-dev.1+abc").Verbose = false ∧
      (LoadConfig { sampleOracle with decodeFile := .decoded quietFile }
        [("ZGO_VERBOSE", "true")] Config.zero).2.1
          ≠ claimedConfig quietFile [("ZGO_VERBOSE", "true")] "0.12.0-dev.1+abc" := by
  decide

/-- What `LoadConfig` makes of a decoded file, field by field. -/
theorem LoadConfig_decoded_fields (o : Oracle) (env : Env) (f : TomlFile) (nightly : String)
    (hf : o.decodeFile = .decoded f)
    (hq : f.version.getD "" = "" → Getenv env "ZGO_VERSION" = "" →
      (queryLatestNightlyZigVersion o).result = .ok nightly) :
    (LoadConfig o env Config.zero).2.2 = none ∧
    (LoadConfig o env Config.zero).2.1.Version =
      (if f.version.getD "" ≠ "" then f.version.getD ""
        else if Getenv env "ZGO_VERSION" ≠ "" then Getenv env "ZGO_VERSION" else nightly) ∧
    (LoadConfig o env Config.zero).2.1.Verbose =
      (if f.verbose = some true then true else (ParseBool (Getenv env "ZGO_VERBOSE")).1) ∧
    (LoadConfig o env Config.zero).2.1.Dir =
      (if f.dir.getD "" ≠ "" then f.dir.getD ""
        else if Getenv env "ZGO_DIR" ≠ "" then Getenv env "ZGO_DIR" else ".zgo") ∧
    (LoadConfig o env Config.zero).2.1.AcceptXCodeLicense =
      (if f.acceptXCodeLicense = some true then true
        else (ParseBool (Getenv env "ZGO_ACCEPT_XCODE_LICENSE")).1) ∧
    ((LoadConfig o env Config.zero).1 =
      if f.version.getD "" = "" ∧ Getenv env "ZGO_VERSION" = "" then [.httpGet nightlyIndexURL]
      else []) := by
  obtain ⟨fv, fb, fd, fa⟩ := f
  have htr := queryLatestNightlyZigVersion_trace o
  by_cases h1 : fv.getD "" = ""
  · by_cases h2 : Getenv env "ZGO_VERSION" = ""
    · have hq2 := hq h1 h2
      rcases fb with _ | _ | _ <;> rcases fa with _ | _ | _ <;>
        by_cases h3 : fd.getD "" = "" <;>
        by_cases h4 : Getenv env "ZGO_DIR" = "" <;>
        simp [LoadConfig, hf, TomlFile.decodeInto, Config.zero, h1, h2, h3, h4, hq2, htr]
    · rcases fb with _ | _ | _ <;> rcases fa with _ | _ | _ <;>
        by_cases h3 : fd.getD "" = "" <;>
        by_cases h4 : Getenv env "ZGO_DIR" = "" <;>
        simp [LoadConfig, hf, TomlFile.decodeInto, Config.zero, h1, h2, h3, h4]
  · rcases fb with _ | _ | _ <;> rcases fa with _ | _ | _ <;>
      by_cases h3 : fd.getD "" = "" <;>
      by_cases h4 : Getenv env "ZGO_DIR" = "" <;>
      simp [LoadConfig, hf, TomlFile.decodeInto, Config.zero, h1, h3, h4]

/-- C6 amended: for a decoded file, when the latest nightly is `nightly`
whenever it has to be queried, `LoadConfig` returns no error and each field is
the value of the file when that value is not the zero value (a non-empty
string, `true`), otherwise the value of the environment variable when it is
non-empty (for a flag: what `ParseBool` makes of it), otherwise the default. -/
theorem LoadConfig_precedence (o : Oracle) (env : Env) (f : TomlFile) (nightly : String)
    (hf : o.decodeFile = .decoded f)
    (hq : f.version.getD "" = "" → Getenv env "ZGO_VERSION" = "" →
      (queryLatestNightlyZigVersion o).result = .ok nightly) :
    (LoadConfig o env Config.zero).2.2 = none ∧
    (LoadConfig o env Config.zero).2.1.Version =
      (if f.version.getD "" ≠ "" then f.version.getD ""
        else if Getenv env "ZGO_VERSION" ≠ "" then Getenv env "ZGO_VERSION" else nightly) ∧
    (LoadConfig o env Config.zero).2.1.Verbose =
      (if f.verbose = some true then true else (ParseBool (Getenv env "ZGO_VERBOSE")).1) ∧
    (LoadConfig o env Config.zero).2.1.Dir =
      (if f.dir.getD "" ≠ "" then f.dir.getD ""
        else if Getenv env "ZGO_DIR" ≠ "" then Getenv env "ZGO_DIR" else ".zgo") ∧
    (LoadConfig o env Config.zero).2.1.AcceptXCodeLicense =
      (if f.acceptXCodeLicense = some true then true
        else (ParseBool (Getenv env "ZGO_ACCEPT_XCODE_LICENSE")).1) ∧
    ((LoadConfig o env Config.zero).1 =
      if f.version.getD "" = "" ∧ Getenv env "ZGO_VERSION" = "" then [.httpGet nightlyIndexURL]
      else []) :=
  LoadConfig_decoded_fields o env f nightly hf hq

/-- The precedence on a host where only `ZGO_DIR` is set and the file is empty. -/
theorem LoadConfig_precedence_witness :
    sampleOracle.decodeFile = .decoded TomlFile.empty ∧
      (queryLatestNightlyZigVersion sampleOracle).result = .ok "0.12.0-dev.1+abc" ∧
      (LoadConfig sampleOracle [("ZGO_DIR", "cache")] Config.zero).2.2 = none ∧
      (LoadConfig sampleOracle [("ZGO_DIR", "cache")] Config.zero).2.1.Dir = "cache" :=
  ⟨rfl, by decide,
    (LoadConfig_precedence sampleOracle [("ZGO_DIR", "cache")] TomlFile.empty "0.12.0-dev.1+abc"
      rfl (fun _ _ => by decide)).1,
    by decide⟩

/-! ## The toolchain -/

/-- C7: in `system` mode with `zig` found at `/usr/bin/zig`, `ensureZigVersion`
returns no error and the empty string, not the path it found. -/
theorem ensureZigVersion_system_returns_empty :
    sampleOracle.lookPathZig = .ok "/usr/bin/zig" ∧
      (ensureZigVersion sampleOracle ⟨"system", false, ".zgo", false⟩).result = .ok "" ∧
      (ensureZigVersion sampleOracle ⟨"system", false, ".zgo", false⟩).trace = [] := by
  decide

/-- The part of C7 that holds: in `system` mode nothing is requested and a
missing `zig` is an error; otherwise, when the toolchain directory exists, the
result is the absolute form of `Dir/zig/Version/zig`, with `.exe` on windows. -/
theorem ensureZigVersion_paths (o : Oracle) (cfg : Config) :
    (cfg.Version = "system" →
      (ensureZigVersion o cfg).trace = [] ∧
      ((∃ msg, o.lookPathZig = .error msg) → ∃ e, (ensureZigVersion o cfg).result = .error e)) ∧
    (cfg.Version ≠ "system" → o.zigDirNotExist = false →
      (ensureZigVersion o cfg).trace = [] ∧
      (ensureZigVersion o cfg).result = .ok (absOrEmpty o (o.pathJoin
        [o.pathJoin [cfg.Dir, "zig", cfg.Version],
          "zig" ++ (if o.runtimeGOOS = "windows" then ".exe" else "")]))) := by
  refine ⟨?_, ?_⟩
  · intro h
    refine ⟨?_, ?_⟩
    · simp only [ensureZigVersion, h, if_true]
      cases o.lookPathZig <;> rfl
    · rintro ⟨msg, hmsg⟩
      simp only [ensureZigVersion, h, if_true, hmsg]
      exact ⟨_, rfl⟩
  · intro h hdir
    simp [ensureZigVersion, h, hdir, bind, Run.andThen, pure]

/-! ## The licence gate -/

/-- C4 as worded fails: with an empty `zgo.toml`, no `ZGO_VERSION`, the target
darwin and the licence not accepted, the handler fails with the licence error
after `LoadConfig` has queried the index of nightly versions over HTTP. -/
theorem handler_queries_nightly_before_gate :
    targetGOOS sampleOracle [("GOOS", "darwin")] = "darwin" ∧
      sampleOracle.decodeFile = .decoded TomlFile.empty ∧
      TomlFile.empty.acceptXCodeLicense = none ∧
      (ParseBool (Getenv [("GOOS", "darwin")] "ZGO_ACCEPT_XCODE_LICENSE")).1 = false ∧
      (handler sampleOracle [("GOOS", "darwin")] []).result = .error licenceError ∧
      (handler sampleOracle [("GOOS", "darwin")] []).trace = [.httpGet nightlyIndexURL] ∧
      (handler sampleOracle [("GOOS", "darwin")] []).trace.any Event.isNetwork = true := by
  decide

theorem handler_of_load_error (o : Oracle) (env : Env) (args : List String) (e : Err)
    (h : (LoadConfig o env Config.zero).2.2 = some e) :
    handler o env args =
      ⟨(LoadConfig o env Config.zero).1, .error (errorsWrap e "zgo: LoadConfig")⟩ := by
  simp [handler, bind, Run.andThen, h]

theorem handler_of_gate (o : Oracle) (env : Env) (args : List String)
    (h : (LoadConfig o env Config.zero).2.2 = none) (hos : targetGOOS o env = "darwin")
    (hacc : (LoadConfig o env Config.zero).2.1.AcceptXCodeLicense = false) :
    handler o env args = ⟨(LoadConfig o env Config.zero).1, .error licenceError⟩ := by
  simp [handler, bind, Run.andThen, h, hos, hacc, Run.fail]

theorem LoadConfig_query_error (o : Oracle) (env : Env) (f : TomlFile) (e : Err)
    (hf : o.decodeFile = .decoded f) (h1 : f.version.getD "" = "")
    (h2 : Getenv env "ZGO_VERSION" = "") (hq : (queryLatestNightlyZigVersion o).result = .error e) :
    (LoadConfig o env Config.zero).1 = [.httpGet nightlyIndexURL] ∧
      (LoadConfig o env Config.zero).2.2
        = some (errorsWrap e "querying latest nightly Zig version") := by
  have htr := queryLatestNightlyZigVersion_trace o
  simp [LoadConfig, hf, TomlFile.decodeInto, Config.zero, h1, h2, hq, htr]

/-- C4 amended: with the target darwin and the licence accepted neither in the
file nor in the environment, the handler fails, and before it fails it makes no
request but, at most, the query of the nightly index: no download, no clone, no
fetch, no subprocess. That query is made exactly when the file exists, is
well-formed, and neither it nor `ZGO_VERSION` gives a version. The failure is
the licence error whenever `LoadConfig` returns no error, which it does unless
the file is unreadable or malformed or the needed query fails; otherwise it is
the error of `LoadConfig`. -/
theorem handler_licence_gate (o : Oracle) (env : Env) (args : List String)
    (hos : targetGOOS o env = "darwin")
    (hfile : ∀ f, o.decodeFile = .decoded f → f.acceptXCodeLicense ≠ some true)
    (henv : (ParseBool (Getenv env "ZGO_ACCEPT_XCODE_LICENSE")).1 = false) :
    (∃ e, (handler o env args).result = .error e) ∧
    (∀ ev ∈ (handler o env args).trace, ev = .httpGet nightlyIndexURL) ∧
    (Event.httpGet nightlyIndexURL ∈ (handler o env args).trace ↔
      ∃ f, o.decodeFile = .decoded f ∧ f.version.getD "" = "" ∧ Getenv env "ZGO_VERSION" = "") ∧
    ((LoadConfig o env Config.zero).2.2 = none →
      (handler o env args).result = .error licenceError) ∧
    (∀ e, (LoadConfig o env Config.zero).2.2 = some e →
      (handler o env args).result = .error (errorsWrap e "zgo: LoadConfig")) ∧
    ((LoadConfig o env Config.zero).2.2 = none ↔
      (∀ msg, o.decodeFile ≠ .failed msg) ∧
      (∀ f, o.decodeFile = .decoded f → f.version.getD "" = "" → Getenv env "ZGO_VERSION" = "" →
        ∃ v, (queryLatestNightlyZigVersion o).result = .ok v)) := by
  rcases hd : o.decodeFile with msg | msg | f
  · have hl := LoadConfig_notExist o env Config.zero msg hd
    have hh := handler_of_gate o env args (by rw [hl]) hos (by rw [hl]; rfl)
    rw [hh, hl]
    simp
  · have hl : LoadConfig o env Config.zero = ([], Config.zero, some (.lib msg)) := by
      simp [LoadConfig, hd]
    have hh := handler_of_load_error o env args (.lib msg) (by rw [hl])
    rw [hh, hl]
    simp [errorsWrap]
  · have hacc : f.acceptXCodeLicense ≠ some true := hfile f hd
    by_cases hneed : f.version.getD "" = "" ∧ Getenv env "ZGO_VERSION" = ""
    · rcases hq : (queryLatestNightlyZigVersion o).result with e | v
      · obtain ⟨ht, he⟩ := LoadConfig_query_error o env f e hd hneed.1 hneed.2 hq
        have hh := handler_of_load_error o env args _ he
        rw [hh, ht, he]
        simp [hneed.1, hneed.2]
      · obtain ⟨he, _, _, _, ha, ht⟩ := LoadConfig_decoded_fields o env f v hd (fun _ _ => hq)
        rw [if_neg hacc, henv] at ha
        rw [if_pos hneed] at ht
        have hh := handler_of_gate o env args he hos ha
        rw [hh, ht, he]
        simp [hneed.1, hneed.2]
    · obtain ⟨he, _, _, _, ha, ht⟩ := LoadConfig_decoded_fields o env f "" hd
        (fun h1 h2 => absurd ⟨h1, h2⟩ hneed)
      rw [if_neg hacc, henv] at ha
      rw [if_neg hneed] at ht
      have hh := handler_of_gate o env args he hos ha
      rw [hh, ht, he]
      simp only [not_and] at hneed
      simp
      exact ⟨hneed, fun h1 h2 => absurd h2 (hneed h1)⟩

/-- The gate on a host without `zgo.toml`: the licence error and no request. -/
theorem handler_licence_gate_witness :
    targetGOOS noFileOracle [("GOOS", "darwin")] = "darwin" ∧
      (ParseBool (Getenv [("GOOS", "darwin")] "ZGO_ACCEPT_XCODE_LICENSE")).1 = false ∧
      (∀ ev ∈ (handler noFileOracle [("GOOS", "darwin")] ["./cmd"]).trace,
        ev = .httpGet nightlyIndexURL) ∧
      (handler noFileOracle [("GOOS", "darwin")] ["./cmd"]).result = .error licenceError ∧
      (handler noFileOracle [("GOOS", "darwin")] ["./cmd"]).trace = [] :=
  ⟨by decide, by decide,
    (handler_licence_gate noFileOracle [("GOOS", "darwin")] ["./cmd"] (by decide)
      (fun f hf => by simp [noFileOracle] at hf) (by decide)).2.1,
    by decide, by decide⟩

/-- The protocol on a clone that has drifted and lacks the pinned revision:
reset, fetch, reset, and success. -/
theorem ensureCloned_protocol_witness :
    (ensureCloned ⟨false, .ok "", .ok "0123abc\n", .error "exit status 128", .ok "", .ok ""⟩
        "https://example.org/sdk" "14613b4" "sdk").trace.count (resetCmd "14613b4" "sdk") ≤ 2 ∧
      (ensureCloned ⟨false, .ok "", .ok "0123abc\n", .error "exit status 128", .ok "", .ok ""⟩
        "https://example.org/sdk" "14613b4" "sdk").trace
        = [revParseCmd "sdk", resetCmd "14613b4" "sdk", fetchCmd "sdk", resetCmd "14613b4" "sdk"] ∧
      (ensureCloned ⟨false, .ok "", .ok "0123abc\n", .error "exit status 128", .ok "", .ok ""⟩
        "https://example.org/sdk" "14613b4" "sdk").result = .ok () :=
  ⟨(ensureCloned_protocol ⟨false, .ok "", .ok "0123abc\n", .error "exit status 128", .ok "",
      .ok ""⟩ "https://example.org/sdk" "14613b4" "sdk").2.2.2.2.1,
    by decide, by decide⟩

end Zgo
